import Mathlib

/-!
Shallow embedding of the mini-hawkular metrics client
(`src/mini_hawkular/metrics.py`) and proofs about its batching,
request-construction and error-classification logic.

Records and datapoints are Python dicts in the source; here they are
structures whose optional fields model possibly-absent dict keys.  The
metric value is opaque to the client, so definitions are polymorphic in a
value type `α`.  Wall-clock time (`time_millis`) and the JSON decoder
(`json.loads`) are collaborators supplied by the platform; they enter the
embedding as explicit parameters (`now`, `loads`).
-/

/-- JSON values, modelling what the `json` codec can return to the client. -/
inductive Json where
  | null
  | bool (b : Bool)
  | num (n : Int)
  | str (s : String)
  | arr (elems : List Json)
  | obj (fields : List (String × Json))

/-- Lookup of a key in a parsed JSON object (Python dict semantics: when a
key is bound twice, the last binding wins). -/
def dictLookup (fields : List (String × Json)) (key : String) : Option Json :=
  fields.foldl (fun acc kv => if kv.1 = key then some kv.2 else acc) none

/-- `j[key]` for a parsed JSON value: a field of an object, and a failure
(Python `TypeError`/`KeyError`, here `none`) on any non-object. -/
def jsonField (j : Json) (key : String) : Option Json :=
  match j with
  | Json.obj fields => dictLookup fields key
  | _ => none

/-- A datapoint dict as built by `create_datapoint`: `timestamp`, `value`
and a possibly-absent `tags` key. -/
structure Datapoint (α : Type) where
  timestamp : Int
  value : α
  tags : Option (List (String × String))
  deriving DecidableEq

/-- A metric-record dict as built by `create_metric` and consumed by `put`:
a possibly-absent `type` key, an `id` and a `data` list. -/
structure MetricDict (α : Type) where
  type : Option String
  id : String
  data : List (Datapoint α)
  deriving DecidableEq

/-- The `data` argument of `create_metric`: a single datapoint dict or a
list of them (`metrics.py` line 288 checks `isinstance(data, list)`). -/
inductive MetricData (α : Type) where
  | single (d : Datapoint α)
  | list (ds : List (Datapoint α))

/-- Embeds `create_datapoint(value, timestamp=None, **tags)`
(`metrics.py` lines 268-282).  `now` stands for `time_millis()`.  The
`**tags` parameter always collects the keyword arguments into a dict —
never `None` — so the guard `if tags is not None` on line 279 always holds
and the `tags` key is always written. -/
def create_datapoint (value : α) (timestamp : Option Int) (now : Int)
    (tags : List (String × String)) : Datapoint α :=
  { timestamp := timestamp.getD now
    value := value
    tags := some tags }

/-- Embeds `create_metric(metric_type, metric_id, data)` (`metrics.py`
lines 284-291): a non-list `data` is wrapped into a one-element list. -/
def create_metric (metric_type : String) (metric_id : String)
    (data : MetricData α) : MetricDict α :=
  { type := some metric_type
    id := metric_id
    data :=
      match data with
      | MetricData.single d => [d]
      | MetricData.list ds => ds }

/-- Connection parameters and credentials held by `HawkularMetricsClient`
(`metrics.py` lines 100-109); the fields the claims exercise. -/
structure ClientConfig where
  tenant_id : String
  host : String
  port : Nat
  path : String
  scheme : String
  token : Option String
  username : Option String
  password : Option String

/-- Embeds `_get_base_url` (`metrics.py` line 122). -/
def get_base_url (c : ClientConfig) : String :=
  c.scheme ++ "://" ++ c.host ++ ":" ++ toString c.port ++ "/" ++ c.path ++ "/"

/-- Embeds `_get_url` (`metrics.py` lines 124-128); `none` selects the
generic `metrics` segment (`MetricType._Metrics`). -/
def get_url (c : ClientConfig) (metric_type : Option String) : String :=
  get_base_url c ++ metric_type.getD "metrics"

/-- Embeds `_get_metrics_raw_url` (`metrics.py` line 134). -/
def get_metrics_raw_url (metrics_url : String) : String :=
  metrics_url ++ "/raw"

/-- The base64 alphabet used by `base64.b64encode`. -/
def b64Alphabet : String :=
  "ABCDEFGHIJKLMNOPQRSTUVWXYZabcdefghijklmnopqrstuvwxyz0123456789+/"

/-- The base64 digit for a 6-bit group. -/
def b64Char (n : Nat) : Char :=
  b64Alphabet.toList.getD n 'A'

/-- Standard base64 of a byte sequence (RFC 4648, with `=` padding),
modelling `base64.b64encode`. -/
def b64encodeBytes : List Nat → String
  | a :: b :: c :: rest =>
      String.mk [b64Char (a / 4), b64Char (a % 4 * 16 + b / 16),
        b64Char (b % 16 * 4 + c / 64), b64Char (c % 64)] ++ b64encodeBytes rest
  | [a, b] =>
      String.mk [b64Char (a / 4), b64Char (a % 4 * 16 + b / 16),
        b64Char (b % 16 * 4), '=']
  | [a] =>
      String.mk [b64Char (a / 4), b64Char (a % 4 * 16), '=', '=']
  | [] => ""

/-- UTF-8 encoding of one character, as a list of byte values. -/
def utf8Bytes (ch : Char) : List Nat :=
  let n := ch.toNat
  if n < 0x80 then [n]
  else if n < 0x800 then [0xC0 + n / 64, 0x80 + n % 64]
  else if n < 0x10000 then [0xE0 + n / 4096, 0x80 + n / 64 % 64, 0x80 + n % 64]
  else [0xF0 + n / 262144, 0x80 + n / 4096 % 64, 0x80 + n / 64 % 64, 0x80 + n % 64]

/-- The UTF-8 bytes of a string. -/
def strBytes (s : String) : List Nat :=
  s.data.foldr (fun ch acc => utf8Bytes ch ++ acc) []

/-- `base64.b64encode` applied to the bytes of a string. -/
def b64encode (s : String) : String :=
  b64encodeBytes (strBytes s)

/-- The `Authorization` header chosen by `_http` (`metrics.py` lines
148-151): `Bearer` whenever a token is set, else `Basic` when a username
is set, else no header.  When a username is set without a password the
source concatenates the username with `None` and raises `TypeError`
before any request is built; that failure is the `error` case here. -/
def authHeader (c : ClientConfig) : Except Unit (Option String) :=
  match c.token with
  | some t => Except.ok (some ("Bearer " ++ t))
  | none =>
    match c.username with
    | some u =>
      match c.password with
      | some p => Except.ok (some ("Basic " ++ b64encode (u ++ ":" ++ p)))
      | none => Except.error ()
    | none => Except.ok none

/-- The fixed headers `_http` attaches to every request (`metrics.py`
lines 144-146), in source order. -/
def baseHeaders (c : ClientConfig) : List (String × String) :=
  [("Content-Type", "application/json"),
   ("Hawkular-Tenant", c.tenant_id),
   ("Host", c.host)]

/-- All headers of an outgoing request (`metrics.py` lines 144-151). -/
def requestHeaders (c : ClientConfig) : Except Unit (List (String × String)) :=
  match authHeader c with
  | Except.error e => Except.error e
  | Except.ok none => Except.ok (baseHeaders c)
  | Except.ok (some a) => Except.ok (baseHeaders c ++ [("Authorization", a)])

/-- One HTTP request issued through `_http`/`_post`. -/
structure Request (α : Type) where
  url : String
  method : String
  payload : List (MetricDict α)
  deriving DecidableEq

/-- The exception raised inside `put` (`metrics.py` line 236):
`HawkularMetricsError('Undefined MetricType')`. -/
inductive PutRaise where
  | hawkularMetricsError (msg : String)
  deriving DecidableEq

/-- The effect of `d.pop('type', None)` on a record dict that is appended
to a group: the `type` key is removed, `id` and `data` stay. -/
def stripType (d : MetricDict α) : MetricDict α :=
  { d with type := none }

/-- `r[t].append(d)` on the `defaultdict(list)` of `put`, modelled on an
association list whose keys appear in first-insertion order. -/
def insertGroup (gs : List (String × List (MetricDict α))) (t : String)
    (d : MetricDict α) : List (String × List (MetricDict α)) :=
  match gs with
  | [] => [(t, [d])]
  | g :: rest => if g.1 = t then (g.1, g.2 ++ [d]) :: rest
                 else g :: insertGroup rest t d

/-- Reading `r[t]` from the group structure (first matching key). -/
def lookupGroup (gs : List (String × List (MetricDict α))) (t : String) :
    List (MetricDict α) :=
  match gs with
  | [] => []
  | g :: rest => if g.1 = t then g.2 else lookupGroup rest t

/-- The first loop of `put` (`metrics.py` lines 233-237): pop each
record's `type`, raise on a missing type, group the popped records by
type.  `none` is the raise of `HawkularMetricsError('Undefined
MetricType')`, which happens before the posting loop runs. -/
def putGroups : List (MetricDict α) → List (String × List (MetricDict α)) →
    Option (List (String × List (MetricDict α)))
  | [], gs => some gs
  | d :: rest, gs =>
    match d.type with
    | none => none
    | some t => putGroups rest (insertGroup gs t (stripType d))

/-- The state of the caller's record dicts after the first loop of `put`
ran: `d.pop('type', None)` removes the `type` key of every record it
reaches; on the first record with no `type` key the loop raises and the
remaining records (including that one, which `pop` left unchanged) keep
their state. -/
def recordsAfterPut : List (MetricDict α) → List (MetricDict α)
  | [] => []
  | d :: rest =>
    match d.type with
    | none => d :: rest
    | some _ => stripType d :: recordsAfterPut rest

/-- The argument of `put`: one record dict or a list of them
(`metrics.py` line 228 checks `isinstance(data, list)`). -/
inductive PutData (α : Type) where
  | single (d : MetricDict α)
  | many (ds : List (MetricDict α))

/-- The record list `put` works on after the `isinstance` normalization
(`metrics.py` lines 228-229); the dict objects are the caller's. -/
def PutData.toList : PutData α → List (MetricDict α)
  | PutData.single d => [d]
  | PutData.many ds => ds

/-- Embeds `put` (`metrics.py` lines 221-241): partition the records by
type, then POST each group to `_get_metrics_raw_url(_get_url(type))`.
Returns the requests issued and the raised error, if any; the raise
happens in the partitioning loop, so no request is issued on error. -/
def put (c : ClientConfig) (data : PutData α) :
    List (Request α) × Option PutRaise :=
  match putGroups data.toList [] with
  | none => ([], some (PutRaise.hawkularMetricsError "Undefined MetricType"))
  | some gs =>
    (gs.map fun g =>
      { url := get_metrics_raw_url (get_url c (some g.1))
        method := "POST"
        payload := g.2 }, none)

/-- The state of the caller's record dicts after `put` returns or raises. -/
def putFinalRecords (data : PutData α) : List (MetricDict α) :=
  recordsAfterPut data.toList

/-- Embeds `push` (`metrics.py` lines 243-251): build one record with
`create_metric`/`create_datapoint` and hand it to `put`. -/
def push (c : ClientConfig) (metric_type : String) (metric_id : String)
    (value : α) (timestamp : Option Int) (now : Int) :
    List (Request α) × Option PutRaise :=
  put c (PutData.single (create_metric metric_type metric_id
    (MetricData.single (create_datapoint value timestamp now []))))

/-- Modelled from the spec: `push(type, id, value, timestamp?)` is the
"convenience composition of `createDatapoint` + `createMetric` + `put`
for a single value" (spec section 4.3). -/
def push_spec (c : ClientConfig) (metric_type : String) (metric_id : String)
    (value : α) (timestamp : Option Int) (now : Int) :
    List (Request α) × Option PutRaise :=
  put c (PutData.single (create_metric metric_type metric_id
    (MetricData.single (create_datapoint value timestamp now []))))

/-- An exception reaching `_handle_error`.  `isHTTP` and `isURL` model the
two `isinstance` tests (in Python, `HTTPError` is a subclass of
`URLError`, so an HTTP error satisfies both); `code` and `body` are the
status and `e.read()` of an HTTP error, `reason` is `str(e.reason)` of a
transport error. -/
structure PyException where
  isHTTP : Bool
  isURL : Bool
  code : Nat
  body : String
  reason : String
  deriving DecidableEq

/-- What `_handle_error` raises. -/
inductive HandledError where
  | serverError (code : Nat) (msg : Json)
  | connectionError (msg : String)
  | reraised (e : PyException)

/-- The fixed message built on `metrics.py` line 198. -/
def connectionFailText : String :=
  "Error, could not send event(s) to the Hawkular Metrics: "

/-- Embeds `_handle_error` (`metrics.py` lines 181-201).  `loads` is the
`json.loads` collaborator.  For an HTTP error the body is parsed and
`errorMsg` extracted; any failure in that `try` block (unparseable body,
non-object value, missing key) falls back to the raw body as the message.
The status code carried by the exception is left untouched. -/
def handle_error (loads : String → Option Json) (e : PyException) :
    HandledError :=
  if e.isHTTP then
    match (loads e.body).bind (fun j => jsonField j "errorMsg") with
    | some m => HandledError.serverError e.code m
    | none => HandledError.serverError e.code (Json.str e.body)
  else if e.isURL then
    HandledError.connectionError (connectionFailText ++ e.reason)
  else
    HandledError.reraised e

/-! ### Generic lemmas about the grouping structure of `put` -/

/-- Inserting into a group leaves every other key's group unchanged and
appends to the inserted key's group. -/
theorem lookupGroup_insertGroup (gs : List (String × List (MetricDict α)))
    (t : String) (d : MetricDict α) (k : String) :
    lookupGroup (insertGroup gs t d) k =
      if k = t then lookupGroup gs t ++ [d] else lookupGroup gs k := by
  induction gs with
  | nil =>
    by_cases hk : k = t
    · subst hk
      simp [insertGroup, lookupGroup]
    · have hk' : ¬ t = k := fun h => hk h.symm
      simp [insertGroup, lookupGroup, hk, hk']
  | cons g rest ih =>
    by_cases hg : g.1 = t
    · subst hg
      by_cases hk : g.1 = k
      · subst hk
        simp [insertGroup, lookupGroup]
      · have hk' : ¬ k = g.1 := fun h => hk h.symm
        simp [insertGroup, lookupGroup, hk, hk']
    · by_cases hk : g.1 = k
      · subst hk
        simp [insertGroup, lookupGroup, hg]
      · have hk' : ¬ k = g.1 := fun h => hk h.symm
        simp [insertGroup, lookupGroup, hg, hk, ih]

/-- The key list after an insertion: unchanged for a known key, extended
at the back for a new one. -/
theorem keys_insertGroup (gs : List (String × List (MetricDict α)))
    (t : String) (d : MetricDict α) :
    (insertGroup gs t d).map Prod.fst =
      if t ∈ gs.map Prod.fst then gs.map Prod.fst
      else gs.map Prod.fst ++ [t] := by
  induction gs with
  | nil => simp [insertGroup]
  | cons g rest ih =>
    by_cases hg : g.1 = t
    · simp [insertGroup, hg]
    · have : ¬ t = g.1 := fun h => hg h.symm
      by_cases hm : t ∈ rest.map Prod.fst <;>
        simp [insertGroup, hg, ih, hm, this]

/-- Insertion preserves distinctness of the keys. -/
theorem nodup_keys_insertGroup (gs : List (String × List (MetricDict α)))
    (t : String) (d : MetricDict α)
    (h : (gs.map Prod.fst).Nodup) :
    ((insertGroup gs t d).map Prod.fst).Nodup := by
  rw [keys_insertGroup]
  by_cases hm : t ∈ gs.map Prod.fst
  · simpa [hm] using h
  · rw [if_neg hm, List.nodup_append]
    refine ⟨h, List.nodup_singleton t, ?_⟩
    intro x hx hxt
    rw [List.mem_singleton] at hxt
    subst hxt
    exact hm hx

/-- Membership in the key list after an insertion. -/
theorem mem_keys_insertGroup (gs : List (String × List (MetricDict α)))
    (t : String) (d : MetricDict α) (k : String) :
    k ∈ (insertGroup gs t d).map Prod.fst ↔
      k ∈ gs.map Prod.fst ∨ k = t := by
  rw [keys_insertGroup]
  by_cases hm : t ∈ gs.map Prod.fst
  · rw [if_pos hm]
    constructor
    · exact fun h => Or.inl h
    · rintro (h | rfl)
      · exact h
      · exact hm
  · rw [if_neg hm]
    simp [List.mem_append]

/-- With distinct keys, an entry of the association list is what lookup
returns at its key. -/
theorem lookupGroup_eq_of_mem (gs : List (String × List (MetricDict α)))
    (hnd : (gs.map Prod.fst).Nodup) (k : String) (v : List (MetricDict α))
    (hm : (k, v) ∈ gs) : lookupGroup gs k = v := by
  induction gs with
  | nil => cases hm
  | cons g rest ih =>
    rcases List.mem_cons.1 hm with hm | hm
    · simp [lookupGroup, ← hm]
    · have hk : k ∈ rest.map Prod.fst :=
        List.mem_map.2 ⟨(k, v), hm, rfl⟩
      have hg : ¬ g.1 = k := by
        intro h
        exact (List.nodup_cons.1 hnd).1 (h ▸ hk)
      simp [lookupGroup, hg]
      exact ih (List.nodup_cons.1 hnd).2 hm

/-! ### Lemmas about the partitioning loop of `put` -/

/-- The partitioning loop raises exactly when some record lacks a type. -/
theorem putGroups_eq_none_iff (l : List (MetricDict α)) :
    ∀ gs, putGroups l gs = none ↔ ∃ d ∈ l, d.type = none := by
  induction l with
  | nil => simp [putGroups]
  | cons d rest ih =>
    intro gs
    cases hd : d.type with
    | none => simp [putGroups, hd]
    | some t =>
      simp only [putGroups, hd, ih, List.mem_cons]
      constructor
      · rintro ⟨x, hx, hxt⟩
        exact ⟨x, Or.inr hx, hxt⟩
      · rintro ⟨x, hx, hxt⟩
        rcases hx with rfl | hx
        · rw [hd] at hxt
          cases hxt
        · exact ⟨x, hx, hxt⟩

/-- When every record carries a type the partitioning loop succeeds. -/
theorem putGroups_eq_some (l : List (MetricDict α)) (gs)
    (h : ∀ d ∈ l, d.type ≠ none) :
    ∃ out, putGroups l gs = some out := by
  cases hout : putGroups l gs with
  | none =>
    obtain ⟨d, hd, hdt⟩ := (putGroups_eq_none_iff l gs).1 hout
    exact absurd hdt (h d hd)
  | some out => exact ⟨out, rfl⟩

/-- Each group produced by the partitioning loop holds exactly the records
of its type, type-popped, in input order. -/
theorem putGroups_lookup (l : List (MetricDict α)) :
    ∀ gs out, putGroups l gs = some out →
      ∀ k, lookupGroup out k =
        lookupGroup gs k ++
          (l.filter (fun d => d.type == some k)).map stripType := by
  induction l with
  | nil =>
    intro gs out h k
    cases h
    simp
  | cons d rest ih =>
    intro gs out h k
    cases hd : d.type with
    | none => simp [putGroups, hd] at h
    | some t =>
      simp only [putGroups, hd] at h
      have := ih (insertGroup gs t (stripType d)) out h k
      rw [this, lookupGroup_insertGroup]
      by_cases hk : k = t
      · subst hk
        simp [List.filter_cons, hd, stripType]
      · have : (d.type == some k) = false := by
          simp [hd, Option.some.injEq]
          exact fun h => hk h.symm
        simp [List.filter_cons, this, hk]

/-- The keys produced by the partitioning loop are the types occurring in
the input (plus the accumulator's keys). -/
theorem putGroups_mem_keys (l : List (MetricDict α)) :
    ∀ gs out, putGroups l gs = some out →
      ∀ k, k ∈ out.map Prod.fst ↔
        k ∈ gs.map Prod.fst ∨ ∃ d ∈ l, d.type = some k := by
  induction l with
  | nil =>
    intro gs out h k
    cases h
    simp
  | cons d rest ih =>
    intro gs out h k
    cases hd : d.type with
    | none => simp [putGroups, hd] at h
    | some t =>
      simp only [putGroups, hd] at h
      rw [ih (insertGroup gs t (stripType d)) out h k, mem_keys_insertGroup]
      constructor
      · rintro ((h | rfl) | ⟨x, hx, hxt⟩)
        · exact Or.inl h
        · exact Or.inr ⟨d, List.mem_cons_self d rest, hd⟩
        · exact Or.inr ⟨x, List.mem_cons_of_mem d hx, hxt⟩
      · rintro (h | ⟨x, hx, hxt⟩)
        · exact Or.inl (Or.inl h)
        · rcases List.mem_cons.1 hx with rfl | hx
          · rw [hd] at hxt
            exact Or.inl (Or.inr (Option.some.inj hxt).symm)
          · exact Or.inr ⟨x, hx, hxt⟩

/-- The partitioning loop keeps the keys distinct. -/
theorem putGroups_nodup_keys (l : List (MetricDict α)) :
    ∀ gs out, putGroups l gs = some out →
      (gs.map Prod.fst).Nodup → (out.map Prod.fst).Nodup := by
  induction l with
  | nil =>
    intro gs out h hnd
    cases h
    exact hnd
  | cons d rest ih =>
    intro gs out h hnd
    cases hd : d.type with
    | none => simp [putGroups, hd] at h
    | some t =>
      simp only [putGroups, hd] at h
      exact ih _ out h (nodup_keys_insertGroup gs t (stripType d) hnd)

/-! ### Lemmas about the mutation `put` performs on the caller's records -/

/-- The record dicts keep their `id` and `data` through the first loop of
`put`, whether it raises or not. -/
theorem recordsAfterPut_id_data (l : List (MetricDict α)) :
    (recordsAfterPut l).map (fun d => (d.id, d.data)) =
      l.map (fun d => (d.id, d.data)) := by
  induction l with
  | nil => rfl
  | cons d rest ih =>
    cases hd : d.type <;> simp [recordsAfterPut, hd, stripType, ih]

/-- When every record carries a type, the loop reaches every record and
pops every `type` key. -/
theorem recordsAfterPut_type_none (l : List (MetricDict α))
    (h : ∀ d ∈ l, d.type ≠ none) :
    ∀ d ∈ recordsAfterPut l, d.type = none := by
  induction l with
  | nil =>
    intro d hd
    cases hd
  | cons d rest ih =>
    cases hd : d.type with
    | none => exact absurd hd (h d (List.mem_cons_self d rest))
    | some t =>
      intro x hx
      simp only [recordsAfterPut, hd] at hx
      rcases List.mem_cons.1 hx with rfl | hx
      · rfl
      · exact ih (fun y hy => h y (List.mem_cons_of_mem d hy)) x hx

/-! ### Claim theorems -/

/-- C1 (counterexample): the record dicts handed to `put` are not
unchanged after the call — `put` pops the `type` key out of the caller's
dict, so a record that was built with `type := some "gauges"` no longer
carries it afterwards. -/
theorem put_records_not_immutable :
    putFinalRecords (PutData.single
        (⟨some "gauges", "m1", []⟩ : MetricDict Nat)) =
      [⟨none, "m1", []⟩] ∧
    ([(⟨none, "m1", []⟩ : MetricDict Nat)] ≠
      [⟨some "gauges", "m1", []⟩]) := by
  constructor
  · rfl
  · decide

/-- C1 (amended): `put` mutates the caller's record dicts instead of
leaving them unchanged: every record keeps its `id` and `data` fields with
their original values, but the `type` key is removed from each record the
partitioning loop processes — in particular from every record when all
records carry a type. -/
theorem put_mutates_only_type (data : PutData α) :
    (putFinalRecords data).map (fun d => (d.id, d.data)) =
      data.toList.map (fun d => (d.id, d.data)) ∧
    ((∀ d ∈ data.toList, d.type ≠ none) →
      ∀ d ∈ putFinalRecords data, d.type = none) :=
  ⟨recordsAfterPut_id_data data.toList,
   fun h => recordsAfterPut_type_none data.toList h⟩

/-- C1 (amended, witness): on a concrete two-record batch, `put` keeps
both ids and data lists and removes both `type` keys. -/
theorem put_mutates_only_type_witness :
    (putFinalRecords (PutData.many
        [(⟨some "gauges", "g1", []⟩ : MetricDict Nat),
         ⟨some "counters", "c1", []⟩])).map (fun d => (d.id, d.data)) =
      [("g1", []), ("c1", [])] ∧
    ∀ d ∈ putFinalRecords (PutData.many
        [(⟨some "gauges", "g1", []⟩ : MetricDict Nat),
         ⟨some "counters", "c1", []⟩]), d.type = none :=
  ⟨(put_mutates_only_type (PutData.many
      [(⟨some "gauges", "g1", []⟩ : MetricDict Nat),
       ⟨some "counters", "c1", []⟩])).1,
   (put_mutates_only_type (PutData.many
      [(⟨some "gauges", "g1", []⟩ : MetricDict Nat),
       ⟨some "counters", "c1", []⟩])).2 (by decide)⟩

/-- C2: whenever some record of the batch lacks a `type` key, `put` raises
`HawkularMetricsError('Undefined MetricType')` from its partitioning loop
and issues no HTTP request, regardless of the record's position. -/
theorem put_missing_type_raises (c : ClientConfig) (data : PutData α)
    (h : ∃ d ∈ data.toList, d.type = none) :
    put c data =
      ([], some (PutRaise.hawkularMetricsError "Undefined MetricType")) := by
  have hnone : putGroups data.toList
      ([] : List (String × List (MetricDict α))) = none :=
    (putGroups_eq_none_iff data.toList []).2 h
  simp [put, hnone]

/-- A demo client configuration for the witnesses. -/
def demoCfg : ClientConfig :=
  { tenant_id := "t0", host := "localhost", port := 8080,
    path := "hawkular/metrics", scheme := "http",
    token := none, username := none, password := none }

/-- C2 (witness): an untyped record in the middle of a typed batch makes
`put` raise and issue zero requests. -/
theorem put_missing_type_raises_witness :
    put demoCfg (PutData.many
        [(⟨some "gauges", "g1", []⟩ : MetricDict Nat),
         ⟨none, "u1", []⟩, ⟨some "counters", "c1", []⟩]) =
      ([], some (PutRaise.hawkularMetricsError "Undefined MetricType")) :=
  put_missing_type_raises demoCfg (PutData.many
      [(⟨some "gauges", "g1", []⟩ : MetricDict Nat),
       ⟨none, "u1", []⟩, ⟨some "counters", "c1", []⟩]) (by decide)

/-- C4: on an HTTP error response, `_handle_error` takes the `errorMsg`
field of a JSON body as the message, falls back to the raw body text when
the body does not parse or lacks `errorMsg`, and keeps the carried status
code in every case. -/
theorem handle_error_http_message (loads : String → Option Json)
    (e : PyException) (hhttp : e.isHTTP = true) :
    (∀ j m, loads e.body = some j → jsonField j "errorMsg" = some m →
      handle_error loads e = HandledError.serverError e.code m) ∧
    (loads e.body = none →
      handle_error loads e =
        HandledError.serverError e.code (Json.str e.body)) ∧
    (∀ j, loads e.body = some j → jsonField j "errorMsg" = none →
      handle_error loads e =
        HandledError.serverError e.code (Json.str e.body)) := by
  refine ⟨?_, ?_, ?_⟩
  · intro j m hj hm
    simp [handle_error, hhttp, hj, hm]
  · intro hj
    simp [handle_error, hhttp, hj]
  · intro j hj hm
    simp [handle_error, hhttp, hj, hm]

/-- A demo JSON decoder for the witnesses: decodes one known body into an
object carrying `errorMsg`, and fails on everything else. -/
def loadsDemo : String → Option Json := fun s =>
  if s = "errbody" then
    some (Json.obj [("errorMsg", Json.str "tenant not found")])
  else none

/-- C4 (witness): a 500 response whose body decodes to an object with
`errorMsg := "tenant not found"` raises a server error with exactly that
message and status 500. -/
theorem handle_error_http_message_witness :
    handle_error loadsDemo ⟨true, true, 500, "errbody", ""⟩ =
      HandledError.serverError 500 (Json.str "tenant not found") :=
  (handle_error_http_message loadsDemo ⟨true, true, 500, "errbody", ""⟩
      rfl).1 (Json.obj [("errorMsg", Json.str "tenant not found")])
    (Json.str "tenant not found") rfl rfl

/-- C5: a transport-level failure (a `URLError` that is not an HTTP
response) becomes a connection error whose message is the fixed
descriptive text followed by the original low-level reason, so the
message contains that reason. -/
theorem handle_error_transport (loads : String → Option Json)
    (e : PyException) (hhttp : e.isHTTP = false) (hurl : e.isURL = true) :
    handle_error loads e =
      HandledError.connectionError (connectionFailText ++ e.reason) ∧
    ∃ a b, connectionFailText ++ e.reason = a ++ e.reason ++ b := by
  refine ⟨?_, connectionFailText, "", by simp⟩
  simp [handle_error, hhttp, hurl]

/-- C5 (witness): a connection refusal reason survives verbatim in the
raised message. -/
theorem handle_error_transport_witness :
    handle_error loadsDemo ⟨false, true, 0, "", "Connection refused"⟩ =
      HandledError.connectionError
        (connectionFailText ++ "Connection refused") ∧
    ∃ a b, connectionFailText ++ "Connection refused" =
      a ++ "Connection refused" ++ b :=
  handle_error_transport loadsDemo
    ⟨false, true, 0, "", "Connection refused"⟩ rfl rfl

/-- C6: every request that goes out carries exactly one of three
authorization states: no `Authorization` header when token and username
are both unset, `Bearer` whenever a token is set, and `Basic` over
`base64(username:password)` when only a username (with its password) is
set. -/
theorem auth_header_states (c : ClientConfig) :
    (c.token = none → c.username = none →
      requestHeaders c = Except.ok (baseHeaders c) ∧
      (baseHeaders c).filter (fun h => h.1 == "Authorization") = []) ∧
    (∀ t, c.token = some t →
      ∃ hs, requestHeaders c = Except.ok hs ∧
        hs.filter (fun h => h.1 == "Authorization") =
          [("Authorization", "Bearer " ++ t)]) ∧
    (∀ u p, c.token = none → c.username = some u → c.password = some p →
      ∃ hs, requestHeaders c = Except.ok hs ∧
        hs.filter (fun h => h.1 == "Authorization") =
          [("Authorization", "Basic " ++ b64encode (u ++ ":" ++ p))]) := by
  refine ⟨?_, ?_, ?_⟩
  · intro ht hu
    refine ⟨?_, rfl⟩
    simp [requestHeaders, authHeader, ht, hu]
  · intro t ht
    refine ⟨baseHeaders c ++ [("Authorization", "Bearer " ++ t)], ?_, rfl⟩
    simp [requestHeaders, authHeader, ht]
  · intro u p ht hu hp
    refine ⟨baseHeaders c ++
      [("Authorization", "Basic " ++ b64encode (u ++ ":" ++ p))], ?_, rfl⟩
    simp [requestHeaders, authHeader, ht, hu, hp]

/-- A demo configuration with basic-auth credentials. -/
def demoCfgBasic : ClientConfig :=
  { demoCfg with username := some "user", password := some "pass" }

/-- C6 (witness): with only username and password set, the one
authorization header is the `Basic` one. -/
theorem auth_header_states_witness :
    ∃ hs, requestHeaders demoCfgBasic = Except.ok hs ∧
      hs.filter (fun h => h.1 == "Authorization") =
        [("Authorization", "Basic " ++ b64encode ("user" ++ ":" ++ "pass"))] :=
  (auth_header_states demoCfgBasic).2.2 "user" "pass" rfl rfl rfl

/-- C7: `push(type, id, value, timestamp)` behaves exactly as the
composition of `create_datapoint`, `create_metric` and `put` on a single
value — the same requests are issued and the same error is raised. -/
theorem push_refines_composition (c : ClientConfig)
    (metric_type metric_id : String) (value : α) (timestamp : Option Int)
    (now : Int) :
    push c metric_type metric_id value timestamp now =
      push_spec c metric_type metric_id value timestamp now ∧
    push c metric_type metric_id value timestamp now =
      put c (PutData.single (create_metric metric_type metric_id
        (MetricData.single (create_datapoint value timestamp now [])))) :=
  ⟨rfl, rfl⟩

/-- C8: `create_metric` on a single datapoint and on the one-element list
of it builds structurally identical records, both of the shape
`type/id/data := [d]`. -/
theorem create_metric_single_eq_list (metric_type metric_id : String)
    (d : Datapoint α) :
    create_metric metric_type metric_id (MetricData.single d) =
      create_metric metric_type metric_id (MetricData.list [d]) ∧
    create_metric metric_type metric_id (MetricData.single d) =
      { type := some metric_type, id := metric_id, data := [d] } :=
  ⟨rfl, rfl⟩

/-- C9: the datapoint built by `create_datapoint` always carries a `tags`
key — with no tags supplied it is present as the empty mapping, so an
omitted-tags call is indistinguishable from an explicit empty-tags call
in the produced record. -/
theorem create_datapoint_always_tags (value : α) (timestamp : Option Int)
    (now : Int) (tags : List (String × String)) :
    (create_datapoint value timestamp now tags).tags = some tags ∧
    (create_datapoint value timestamp now []).tags = some [] ∧
    (create_datapoint value timestamp now tags).tags ≠ none :=
  ⟨rfl, rfl, fun h => Option.noConfusion h⟩

/-- C10: an exception that carries an HTTP response is classified as a
server error and never as a connection error, even though it also
satisfies the transport-error test — `_handle_error` checks the HTTP case
first. -/
theorem handle_error_http_not_connection (loads : String → Option Json)
    (e : PyException) (hhttp : e.isHTTP = true) (hurl : e.isURL = true) :
    (∃ code msg, handle_error loads e = HandledError.serverError code msg) ∧
    ∀ msg, handle_error loads e ≠ HandledError.connectionError msg := by
  have hs : ∃ code msg,
      handle_error loads e = HandledError.serverError code msg := by
    cases hj : (loads e.body).bind (fun j => jsonField j "errorMsg") with
    | none =>
      exact ⟨e.code, Json.str e.body, by simp [handle_error, hhttp, hj]⟩
    | some m => exact ⟨e.code, m, by simp [handle_error, hhttp, hj]⟩
  refine ⟨hs, ?_⟩
  obtain ⟨code, m, heq⟩ := hs
  intro msg h
  rw [heq] at h
  exact HandledError.noConfusion h

/-- C10 (witness): a 503 HTTP failure, which is also a transport-type
exception, is raised as a server error and not as a connection error. -/
theorem handle_error_http_not_connection_witness :
    (∃ code msg, handle_error loadsDemo ⟨true, true, 503, "oops", "x"⟩ =
      HandledError.serverError code msg) ∧
    ∀ msg, handle_error loadsDemo ⟨true, true, 503, "oops", "x"⟩ ≠
      HandledError.connectionError msg :=
  handle_error_http_not_connection loadsDemo
    ⟨true, true, 503, "oops", "x"⟩ rfl rfl

/-- C3: a batch whose records carry exactly two distinct types makes `put`
issue exactly two POST requests — one per distinct type, each to the
raw-datapoint URL built from that type's segment — and each request's
payload is exactly the type-popped records of that type (ids and data
preserved), with no record of the other type. -/
theorem put_two_types (c : ClientConfig) (data : List (MetricDict α))
    (t1 t2 : String) (hne : t1 ≠ t2)
    (h1 : ∃ d ∈ data, d.type = some t1)
    (h2 : ∃ d ∈ data, d.type = some t2)
    (hall : ∀ d ∈ data, d.type = some t1 ∨ d.type = some t2) :
    ∃ reqs, put c (PutData.many data) = (reqs, none) ∧
      reqs.length = 2 ∧
      (∀ r ∈ reqs, r.method = "POST") ∧
      (∀ r ∈ reqs, ∃ t, (t = t1 ∨ t = t2) ∧
        r.url = get_metrics_raw_url (get_url c (some t)) ∧
        r.payload = (data.filter (fun d => d.type == some t)).map stripType) ∧
      (∃ r ∈ reqs, r.url = get_metrics_raw_url (get_url c (some t1)) ∧
        r.payload = (data.filter (fun d => d.type == some t1)).map stripType) ∧
      (∃ r ∈ reqs, r.url = get_metrics_raw_url (get_url c (some t2)) ∧
        r.payload = (data.filter (fun d => d.type == some t2)).map stripType) ∧
      (∀ r ∈ reqs, ∀ p ∈ r.payload, ∃ d ∈ data,
        p.id = d.id ∧ p.data = d.data) := by
  have htyped : ∀ d ∈ data, d.type ≠ none := by
    intro d hd
    rcases hall d hd with h | h <;> simp [h]
  obtain ⟨out, hout⟩ := putGroups_eq_some data [] htyped
  have hput : put c (PutData.many data) =
      (out.map fun g =>
        { url := get_metrics_raw_url (get_url c (some g.1))
          method := "POST"
          payload := g.2 }, none) := by
    simp [put, PutData.toList, hout]
  have hnd : (out.map Prod.fst).Nodup :=
    putGroups_nodup_keys data [] out hout (by simp)
  have hlook : ∀ k, lookupGroup out k =
      (data.filter (fun d => d.type == some k)).map stripType := by
    intro k
    rw [putGroups_lookup data [] out hout k]
    simp [lookupGroup]
  have hkeys : ∀ k, k ∈ out.map Prod.fst ↔ (k = t1 ∨ k = t2) := by
    intro k
    rw [putGroups_mem_keys data [] out hout k]
    simp only [List.map_nil, List.not_mem_nil, false_or]
    constructor
    · rintro ⟨d, hd, hdt⟩
      rcases hall d hd with h | h
      · rw [hdt] at h
        exact Or.inl (Option.some.inj h)
      · rw [hdt] at h
        exact Or.inr (Option.some.inj h)
    · rintro (rfl | rfl)
      · exact h1
      · exact h2
  have hfin : (out.map Prod.fst).toFinset = {t1, t2} := by
    ext k
    simp [List.mem_toFinset, hkeys k]
  have hlen2 : (out.map Prod.fst).length = 2 := by
    rw [← List.toFinset_card_of_nodup hnd, hfin]
    rw [Finset.card_insert_of_not_mem (by simp [hne]), Finset.card_singleton]
  have houtlen : out.length = 2 := by
    rwa [List.length_map] at hlen2
  have hval : ∀ g ∈ out,
      g.2 = (data.filter (fun d => d.type == some g.1)).map stripType := by
    intro g hg
    have hl : lookupGroup out g.1 = g.2 :=
      lookupGroup_eq_of_mem out hnd g.1 g.2 (by rw [Prod.mk.eta]; exact hg)
    rw [← hl, hlook g.1]
  have hreq : ∀ t, t ∈ out.map Prod.fst → ∃ g ∈ out, g.1 = t := by
    intro t ht
    obtain ⟨g, hg, hgt⟩ := List.mem_map.1 ht
    exact ⟨g, hg, hgt⟩
  refine ⟨_, hput, ?_, ?_, ?_, ?_, ?_, ?_⟩
  · simp [houtlen]
  · intro r hr
    obtain ⟨g, hg, rfl⟩ := List.mem_map.1 hr
    rfl
  · intro r hr
    obtain ⟨g, hg, rfl⟩ := List.mem_map.1 hr
    exact ⟨g.1, (hkeys g.1).1 (List.mem_map.2 ⟨g, hg, rfl⟩), rfl, hval g hg⟩
  · obtain ⟨g, hg, hgt⟩ := hreq t1 ((hkeys t1).2 (Or.inl rfl))
    refine ⟨_, List.mem_map.2 ⟨g, hg, rfl⟩, ?_, ?_⟩
    · rw [hgt]
    · rw [hval g hg, hgt]
  · obtain ⟨g, hg, hgt⟩ := hreq t2 ((hkeys t2).2 (Or.inr rfl))
    refine ⟨_, List.mem_map.2 ⟨g, hg, rfl⟩, ?_, ?_⟩
    · rw [hgt]
    · rw [hval g hg, hgt]
  · intro r hr p hp
    obtain ⟨g, hg, rfl⟩ := List.mem_map.1 hr
    rw [hval g hg] at hp
    obtain ⟨d, hd, rfl⟩ := List.mem_map.1 hp
    exact ⟨d, (List.mem_filter.1 hd).1, rfl, rfl⟩

/-- A demo batch carrying exactly the two types `gauges` and `counters`. -/
def demoBatch : List (MetricDict Nat) :=
  [⟨some "gauges", "g1", [⟨1, 10, some []⟩]⟩,
   ⟨some "counters", "c1", [⟨2, 20, some []⟩]⟩,
   ⟨some "gauges", "g2", [⟨3, 30, some []⟩]⟩]

/-- C3 (witness): the two-type demo batch yields exactly two POSTs, one
per type, each carrying only its own type's records. -/
theorem put_two_types_witness :
    ∃ reqs, put demoCfg (PutData.many demoBatch) = (reqs, none) ∧
      reqs.length = 2 ∧
      (∀ r ∈ reqs, r.method = "POST") ∧
      (∀ r ∈ reqs, ∃ t, (t = "gauges" ∨ t = "counters") ∧
        r.url = get_metrics_raw_url (get_url demoCfg (some t)) ∧
        r.payload =
          (demoBatch.filter (fun d => d.type == some t)).map stripType) ∧
      (∃ r ∈ reqs, r.url = get_metrics_raw_url (get_url demoCfg (some "gauges")) ∧
        r.payload =
          (demoBatch.filter (fun d => d.type == some "gauges")).map stripType) ∧
      (∃ r ∈ reqs, r.url = get_metrics_raw_url (get_url demoCfg (some "counters")) ∧
        r.payload =
          (demoBatch.filter (fun d => d.type == some "counters")).map stripType) ∧
      (∀ r ∈ reqs, ∀ p ∈ r.payload, ∃ d ∈ demoBatch,
        p.id = d.id ∧ p.data = d.data) :=
  put_two_types demoCfg demoBatch "gauges" "counters" (by decide)
    (by decide) (by decide) (by decide)
